import Mathlib

/-!
Shallow embedding of the Cloudflare worker `src/worker/src/index.js`
(EVE SSO identity linkage and token lifecycle): the `btoa`/`atob` state
encoding used by `createAuthURL` and `handleAuthCallback`, the
`authenticated_users` credential store, the callback upsert, and the
`refreshAuthTokens` sweep.  JavaScript strings are sequences of 16-bit
code units, modelled as lists of naturals; timestamps (ISO-8601 strings
in the code, which compare lexicographically exactly as their instants
because they share one fixed format) are modelled as epoch milliseconds.
-/

/-- A JavaScript string: a sequence of UTF-16 code units. -/
abbrev JStr := List Nat

/-- Code units of a Lean string literal, for writing concrete JS strings. -/
def js (s : String) : JStr := s.data.map Char.toNat

/-! ### base64 (`btoa` / `atob`) -/

/-- The base64 alphabet: sextet index to code unit. -/
def b64alpha (i : Nat) : Nat :=
  if i < 26 then 65 + i
  else if i < 52 then 97 + (i - 26)
  else if i < 62 then 48 + (i - 52)
  else if i = 62 then 43
  else 47

/-- Inverse of the base64 alphabet; `none` on a code unit outside it
(in particular on the padding character 61, i.e. `=`). -/
def b64inv (c : Nat) : Option Nat :=
  if 65 ≤ c ∧ c ≤ 90 then some (c - 65)
  else if 97 ≤ c ∧ c ≤ 122 then some (26 + (c - 97))
  else if 48 ≤ c ∧ c ≤ 57 then some (52 + (c - 48))
  else if c = 43 then some 62
  else if c = 47 then some 63
  else none

/-- base64 encoding of a byte sequence, with `=` (61) padding,
as `btoa` produces it. -/
def b64encode : List Nat → List Nat
  | [] => []
  | [b0] => [b64alpha (b0 / 4), b64alpha (b0 % 4 * 16), 61, 61]
  | [b0, b1] =>
      [b64alpha (b0 / 4), b64alpha (b0 % 4 * 16 + b1 / 16), b64alpha (b1 % 16 * 4), 61]
  | b0 :: b1 :: b2 :: rest =>
      b64alpha (b0 / 4) :: b64alpha (b0 % 4 * 16 + b1 / 16) ::
      b64alpha (b1 % 16 * 4 + b2 / 64) :: b64alpha (b2 % 64) :: b64encode rest

/-- base64 decoding, as `atob` performs it on padded input. -/
def b64decode : List Nat → Option (List Nat)
  | [] => some []
  | c0 :: c1 :: c2 :: c3 :: rest =>
    (match b64inv c0, b64inv c1, b64inv c2, b64inv c3 with
     | some s0, some s1, some s2, some s3 =>
         (b64decode rest).map
           (fun t => (s0 * 4 + s1 / 16) :: (s1 % 16 * 16 + s2 / 4) :: (s2 % 4 * 64 + s3) :: t)
     | some s0, some s1, some s2, none =>
         if c3 = 61 ∧ rest = [] then some [s0 * 4 + s1 / 16, s1 % 16 * 16 + s2 / 4] else none
     | some s0, some s1, none, none =>
         if c2 = 61 ∧ c3 = 61 ∧ rest = [] then some [s0 * 4 + s1 / 16] else none
     | _, _, _, _ => none)
  | _ => none

/-- `btoa`: throws (here `none`) when a code unit exceeds 255. -/
def btoa (s : JStr) : Option JStr :=
  if s.all (fun c => c < 256) then some (b64encode s) else none

/-- `atob`. -/
def atob (s : JStr) : Option JStr := b64decode s

/-! ### JSON string serialization (`JSON.stringify` / `JSON.parse`),
restricted to the object shape the worker produces for the SSO state. -/

/-- Hex digit character (lowercase), as used in JSON `\u00XX` escapes. -/
def hexDigitChar (n : Nat) : Nat := if n < 10 then 48 + n else 87 + n

/-- Value of a hex digit character. -/
def hexVal (c : Nat) : Option Nat :=
  if 48 ≤ c ∧ c ≤ 57 then some (c - 48)
  else if 97 ≤ c ∧ c ≤ 102 then some (10 + (c - 97))
  else if 65 ≤ c ∧ c ≤ 70 then some (10 + (c - 65))
  else none

/-- How `JSON.stringify` escapes one code unit inside a string literal:
quote and backslash are escaped, control characters get their short escapes
or a `\u00XX` escape, everything else passes through. -/
def jsonEscapeChar (c : Nat) : List Nat :=
  if c = 34 then [92, 34]
  else if c = 92 then [92, 92]
  else if c = 8 then [92, 98]
  else if c = 9 then [92, 116]
  else if c = 10 then [92, 110]
  else if c = 12 then [92, 102]
  else if c = 13 then [92, 114]
  else if c < 32 then [92, 117, 48, 48, hexDigitChar (c / 16), hexDigitChar (c % 16)]
  else [c]

/-- Escape a whole string body. -/
def jsonEscape : List Nat → List Nat
  | [] => []
  | c :: s => jsonEscapeChar c ++ jsonEscape s

/-- Parse a JSON string literal body up to and including its closing quote,
returning the decoded content and the remaining input
(the string-literal fragment of `JSON.parse`). -/
def parseJsonString : List Nat → Option (List Nat × List Nat)
  | [] => none
  | c :: rest =>
    if c = 34 then some ([], rest)
    else if c = 92 then
      match rest with
      | [] => none
      | e :: r1 =>
        if e = 34 then (parseJsonString r1).map (fun p => (34 :: p.1, p.2))
        else if e = 92 then (parseJsonString r1).map (fun p => (92 :: p.1, p.2))
        else if e = 47 then (parseJsonString r1).map (fun p => (47 :: p.1, p.2))
        else if e = 98 then (parseJsonString r1).map (fun p => (8 :: p.1, p.2))
        else if e = 116 then (parseJsonString r1).map (fun p => (9 :: p.1, p.2))
        else if e = 110 then (parseJsonString r1).map (fun p => (10 :: p.1, p.2))
        else if e = 102 then (parseJsonString r1).map (fun p => (12 :: p.1, p.2))
        else if e = 114 then (parseJsonString r1).map (fun p => (13 :: p.1, p.2))
        else if e = 117 then
          match r1 with
          | h1 :: h2 :: h3 :: h4 :: r2 =>
            (match hexVal h1, hexVal h2, hexVal h3, hexVal h4 with
             | some a, some b, some hc, some d =>
                 (parseJsonString r2).map
                   (fun p => ((a * 4096 + b * 256 + hc * 16 + d) :: p.1, p.2))
             | _, _, _, _ => none)
          | _ => none
        else none
    else (parseJsonString rest).map (fun p => (c :: p.1, p.2))

/-! ### Decimal number serialization (for the `timestamp` field) -/

/-- Decimal digits of `n`, most significant first, accumulated onto `acc`
(empty when `n = 0`); `fuel ≥ n` is always enough. -/
def natDigitsAux : Nat → Nat → List Nat → List Nat
  | 0, _, acc => acc
  | fuel + 1, n, acc =>
    if n = 0 then acc
    else natDigitsAux fuel (n / 10) ((48 + n % 10) :: acc)

/-- Decimal representation of a natural number, as `JSON.stringify` writes it. -/
def natDigits (n : Nat) : List Nat :=
  if n = 0 then [48] else natDigitsAux n n []

/-- Is a code unit a decimal digit? -/
def isDigit (c : Nat) : Bool := 48 ≤ c && c ≤ 57

/-- Numeric value of a digit string (most significant first). -/
def digitsVal (l : List Nat) : Nat := l.foldl (fun a c => a * 10 + (c - 48)) 0

/-! ### The SSO state token
`createAuthURL` packs `btoa(JSON.stringify(\x7b discord_id, discord_username,
timestamp: Date.now() \x7d))` into the authorization URL; `handleAuthCallback`
recovers it with `JSON.parse(atob(state))`. -/

/-- Expect `p` as a literal prefix of `s`; return the remainder. -/
def expectLit : List Nat → List Nat → Option (List Nat)
  | [], s => some s
  | _ :: _, [] => none
  | a :: p, b :: s => if a = b then expectLit p s else none

/-- `JSON.stringify` of the state object
`\x7b discord_id, discord_username, timestamp \x7d` (insertion key order). -/
def stringifyState (did dun : JStr) (ts : Nat) : JStr :=
  js "\x7b\"discord_id\":\"" ++
    (jsonEscape did ++ (34 ::
      (js ",\"discord_username\":\"" ++
        (jsonEscape dun ++ (34 ::
          (js ",\"timestamp\":" ++ (natDigits ts ++ [125])))))))

/-- `JSON.parse` of a state token's text, restricted to the grammar of the
objects `stringifyState` emits, yielding the `discord_id`, `discord_username`
and `timestamp` fields. -/
def parseState (t : JStr) : Option (JStr × JStr × Nat) :=
  match expectLit (js "\x7b\"discord_id\":\"") t with
  | none => none
  | some r1 =>
    match parseJsonString r1 with
    | none => none
    | some (did, r2) =>
      match expectLit (js ",\"discord_username\":\"") r2 with
      | none => none
      | some r3 =>
        match parseJsonString r3 with
        | none => none
        | some (dun, r4) =>
          match expectLit (js ",\"timestamp\":") r4 with
          | none => none
          | some r5 =>
            let ds := r5.takeWhile isDigit
            let r6 := r5.drop ds.length
            if ds = [] then none
            else if r6 = [125] then some (did, dun, digitsVal ds)
            else none

/-- The state value `createAuthURL` embeds in the authorization URL:
`btoa(JSON.stringify(...))`; `none` when `btoa` throws
(some code unit of the serialized object exceeds 255). -/
def createState (did dun : JStr) (ts : Nat) : Option JStr :=
  btoa (stringifyState did dun ts)

/-- The decoding `handleAuthCallback` performs on the `state` query
parameter: `JSON.parse(atob(state))`, destructured. -/
def decodeState (st : JStr) : Option (JStr × JStr × Nat) :=
  match atob st with
  | none => none
  | some t => parseState t

/-! ### Authorization Initiator (`createAuthURL`) -/

/-- Outcome of `createAuthURL`: a 400 for missing/empty fields, a thrown
`btoa` error (propagated as a 500 by the router), or the state token that is
embedded in the returned authorization URL (the `URLSearchParams`
percent-encoding and the callback's `searchParams.get` cancel out, so the
token itself is what the Callback Handler receives). -/
inductive AuthURLResult where
  | missingFields
  | thrown
  | ok (state : JStr)
deriving Repr, DecidableEq

/-- `createAuthURL`: reject missing/empty `discord_id`/`discord_username`
(JS falsiness), else pack the state token. -/
def createAuthURL (did dun : JStr) (nowMs : Nat) : AuthURLResult :=
  if did = [] ∨ dun = [] then .missingFields
  else
    match createState did dun nowMs with
    | none => .thrown
    | some st => .ok st

/-! ### Credential Store (`authenticated_users` table) -/

/-- One row of `authenticated_users` (the `id` autoincrement column carries
no information and is not modelled). -/
structure AuthUser where
  discord_id : JStr
  discord_username : JStr
  eve_character_id : Nat
  eve_character_name : JStr
  eve_corporation_id : Nat
  eve_corporation_name : JStr
  eve_corporation_ticker : JStr
  eve_alliance_id : Option Nat
  eve_alliance_name : Option JStr
  eve_alliance_ticker : Option JStr
  access_token : JStr
  refresh_token : JStr
  token_expires_at : Nat
  last_updated : Nat
  created_at : Nat
deriving Repr, DecidableEq

/-- `SELECT ... FROM authenticated_users WHERE discord_id = ?`
(first matching row, as a scalar subquery returns it). -/
def dbLookup (db : List AuthUser) (did : JStr) : Option AuthUser :=
  db.find? (fun r => decide (r.discord_id = did))

/-- `INSERT OR REPLACE INTO authenticated_users`: rows conflicting on the
`discord_id` UNIQUE constraint are deleted, the new row is inserted
(its values, including the `COALESCE` subselect, were computed first). -/
def upsertUser (db : List AuthUser) (u : AuthUser) : List AuthUser :=
  db.filter (fun r => decide (r.discord_id ≠ u.discord_id)) ++ [u]

/-! ### External responses, with JS truthiness -/

/-- `x || null` for an optional string field: `undefined`, `null` and the
empty string are all falsy. -/
def truthyStr (s : Option JStr) : Option JStr :=
  match s with
  | some [] => none
  | some l => some l
  | none => none

/-- `x || null` / `if (x)` for an optional numeric field: `undefined`,
`null` and `0` are falsy. -/
def truthyNat (n : Option Nat) : Option Nat :=
  match n with
  | some 0 => none
  | some m => some m
  | none => none

/-- Token endpoint response body. `access_token` is the one field the code
checks for presence; absence of it makes the handler throw. -/
structure TokenResponse where
  access_token : Option JStr
  refresh_token : JStr
  expires_in : Nat
deriving Repr, DecidableEq

/-- `/verify/` response. -/
structure CharacterInfo where
  CharacterID : Nat
  CharacterName : JStr
deriving Repr, DecidableEq

/-- `/characters/\x7bid\x7d/` response field the code reads. -/
structure CharData where
  corporation_id : Nat
deriving Repr, DecidableEq

/-- `/corporations/\x7bid\x7d/` response fields the code reads. -/
structure CorpData where
  corporation_id : Nat
  name : JStr
  ticker : JStr
  alliance_id : Option Nat
deriving Repr, DecidableEq

/-- `/alliances/\x7bid\x7d/` response fields the code reads. -/
structure AllianceData where
  name : JStr
  ticker : JStr
deriving Repr, DecidableEq

/-! ### Callback Handler (`handleAuthCallback`) -/

/-- The external world as `handleAuthCallback` observes it: each fetch
either throws / returns unusable data (`none`) or yields a body.  Lookups
are keyed by the identifier the code puts in the URL. -/
structure CallbackEnv where
  tokenResp : Option TokenResponse
  verifyResp : Option CharacterInfo
  charResp : Nat → Option CharData
  corpResp : Nat → Option CorpData
  allianceResp : Nat → Option AllianceData
  nowMs : Nat

/-- What `handleAuthCallback` returns: 400 for a missing `code`/`state`,
the catch-all 500 for anything thrown, or the 200 success page (with the
character name, corporation ticker and optional alliance ticker it shows). -/
inductive CallbackResult where
  | badRequest
  | authError
  | success (characterName corpTicker : JStr) (allianceTicker : Option JStr)
deriving Repr, DecidableEq

/-- `handleAuthCallback`, returning its response and the store after it.
Every failure before the single `INSERT OR REPLACE` lands in the one
`catch` and leaves the store untouched. -/
def handleAuthCallback (env : CallbackEnv) (db : List AuthUser)
    (code state : Option JStr) : CallbackResult × List AuthUser :=
  match truthyStr code, truthyStr state with
  | some _, some st =>
    match decodeState st with
    | none => (.authError, db)
    | some (did, dun, _ts) =>
      match env.tokenResp with
      | none => (.authError, db)
      | some tokens =>
        match tokens.access_token with
        | none => (.authError, db)
        | some accessTok =>
          match env.verifyResp with
          | none => (.authError, db)
          | some characterInfo =>
            match env.charResp characterInfo.CharacterID with
            | none => (.authError, db)
            | some charData =>
              match env.corpResp charData.corporation_id with
              | none => (.authError, db)
              | some corpData =>
                match
                  (match truthyNat corpData.alliance_id with
                   | some aid => (env.allianceResp aid).map some
                   | none => some none) with
                | none => (.authError, db)
                | some allianceData =>
                  let expiresAt := env.nowMs + tokens.expires_in * 1000
                  let createdAt :=
                    match dbLookup db did with
                    | some prev => prev.created_at
                    | none => env.nowMs
                  let u : AuthUser := {
                    discord_id := did
                    discord_username := dun
                    eve_character_id := characterInfo.CharacterID
                    eve_character_name := characterInfo.CharacterName
                    eve_corporation_id := corpData.corporation_id
                    eve_corporation_name := corpData.name
                    eve_corporation_ticker := corpData.ticker
                    eve_alliance_id := truthyNat corpData.alliance_id
                    eve_alliance_name := truthyStr (allianceData.map (fun a => a.name))
                    eve_alliance_ticker := truthyStr (allianceData.map (fun a => a.ticker))
                    access_token := accessTok
                    refresh_token := tokens.refresh_token
                    token_expires_at := expiresAt
                    last_updated := env.nowMs
                    created_at := createdAt }
                  (.success characterInfo.CharacterName corpData.ticker
                     (allianceData.map (fun a => a.ticker)),
                   upsertUser db u)
  | _, _ => (.badRequest, db)

/-! ### Refresh Cycle (`refreshAuthTokens`) -/

/-- The external world one sweep observes (refresh grant keyed by the
refresh token sent; character/corporation/alliance lookups keyed by id).
`nowMs` stands for both the sweep's `now` and the per-record `Date.now()`,
which the code takes within the same run. -/
structure RefreshEnv where
  refreshResp : JStr → Option TokenResponse
  charResp : Nat → Option CharData
  corpResp : Nat → Option CorpData
  allianceResp : Nat → Option AllianceData
  nowMs : Nat

/-- The column values the sweep's `UPDATE authenticated_users SET ...`
writes; every column not listed here is left untouched by the statement. -/
structure RefreshWrite where
  eve_corporation_id : Nat
  eve_corporation_name : JStr
  eve_corporation_ticker : JStr
  eve_alliance_id : Option Nat
  eve_alliance_name : Option JStr
  eve_alliance_ticker : Option JStr
  access_token : JStr
  refresh_token : JStr
  token_expires_at : Nat
  last_updated : Nat
deriving Repr, DecidableEq

/-- Apply the sweep's `UPDATE ... SET` column list to one row. -/
def applyRefreshWrite (w : RefreshWrite) (r : AuthUser) : AuthUser :=
  { r with
    eve_corporation_id := w.eve_corporation_id
    eve_corporation_name := w.eve_corporation_name
    eve_corporation_ticker := w.eve_corporation_ticker
    eve_alliance_id := w.eve_alliance_id
    eve_alliance_name := w.eve_alliance_name
    eve_alliance_ticker := w.eve_alliance_ticker
    access_token := w.access_token
    refresh_token := w.refresh_token
    token_expires_at := w.token_expires_at
    last_updated := w.last_updated }

/-- `UPDATE authenticated_users SET ... WHERE discord_id = ?`. -/
def updateWhere (db : List AuthUser) (did : JStr) (w : RefreshWrite) : List AuthUser :=
  db.map (fun r => if r.discord_id = did then applyRefreshWrite w r else r)

/-- The body of the sweep's `try` block for one record, up to (but not
performing) the database write: the refresh-token exchange, the
`access_token` presence check, and the affiliation re-resolution.  `none`
means some step threw, landing in the per-record `catch`. -/
def refreshOne (env : RefreshEnv) (user : AuthUser) : Option RefreshWrite :=
  match env.refreshResp user.refresh_token with
  | none => none
  | some tokens =>
    match tokens.access_token with
    | none => none
    | some accessTok =>
      match env.charResp user.eve_character_id with
      | none => none
      | some charData =>
        match env.corpResp charData.corporation_id with
        | none => none
        | some corpData =>
          match
            (match truthyNat corpData.alliance_id with
             | some aid => (env.allianceResp aid).map some
             | none => some none) with
          | none => none
          | some allianceData =>
            some {
              eve_corporation_id := corpData.corporation_id
              eve_corporation_name := corpData.name
              eve_corporation_ticker := corpData.ticker
              eve_alliance_id := truthyNat corpData.alliance_id
              eve_alliance_name := truthyStr (allianceData.map (fun a => a.name))
              eve_alliance_ticker := truthyStr (allianceData.map (fun a => a.ticker))
              access_token := accessTok
              refresh_token := tokens.refresh_token
              token_expires_at := env.nowMs + tokens.expires_in * 1000
              last_updated := env.nowMs }

/-- An element of the sweep's `refreshed` result list. -/
structure RefreshedItem where
  discord_id : JStr
  character_name : JStr
  corporation : JStr
  alliance : Option JStr
deriving Repr, DecidableEq

/-- An element of the sweep's `failed` result list (the free-form runtime
`error.message` string is not modelled). -/
structure FailedItem where
  discord_id : JStr
deriving Repr, DecidableEq

/-- The entry pushed onto `refreshed` for a successfully processed record. -/
def mkRefreshedItem (user : AuthUser) (w : RefreshWrite) : RefreshedItem :=
  { discord_id := user.discord_id
    character_name := user.eve_character_name
    corporation := w.eve_corporation_ticker
    alliance := w.eve_alliance_ticker }

/-- `SELECT * FROM authenticated_users WHERE token_expires_at <= ?`:
the expiring-record query, for an arbitrary bound. -/
def listExpiringWithin (db : List AuthUser) (bound : Nat) : List AuthUser :=
  db.filter (fun u => decide (u.token_expires_at ≤ bound))

/-- The sweep's `for` loop over the selected records: each iteration
independently attempts `refreshOne`, writes back on success, and records
the outcome in `refreshed` or `failed`. -/
def sweepGo (env : RefreshEnv) (db : List AuthUser) :
    List AuthUser → List RefreshedItem × List FailedItem × List AuthUser
  | [] => ([], [], db)
  | user :: rest =>
    match refreshOne env user with
    | some w =>
      let out := sweepGo env (updateWhere db user.discord_id w) rest
      (mkRefreshedItem user w :: out.1, out.2.1, out.2.2)
    | none =>
      let out := sweepGo env db rest
      (out.1, { discord_id := user.discord_id } :: out.2.1, out.2.2)

/-- `refreshAuthTokens`: select records expiring within one hour
(`Date.now() + 3600000`) and run the per-record loop; returns the
`refreshed` list, the `failed` list, and the store after the sweep. -/
def refreshAuthTokens (env : RefreshEnv) (db : List AuthUser) :
    List RefreshedItem × List FailedItem × List AuthUser :=
  sweepGo env db (listExpiringWithin db (env.nowMs + 3600000))

/-! ### The worker's `fetch` entry point (CORS preflight and API-key gate) -/

/-- A response, by status code (the body and CORS headers carry no state). -/
structure ApiResponse where
  status : Nat
deriving Repr, DecidableEq

/-- An inbound request as the gate reads it: method, path, and the
`X-API-Key` header (`none` when absent). -/
structure ApiRequest where
  method : JStr
  path : JStr
  apiKey : Option JStr
deriving Repr, DecidableEq

/-- Worker environment bindings; `API_KEY` may be unset. -/
structure WorkerEnv where
  API_KEY : Option JStr

/-- The `fetch` handler's gate, over an arbitrary store type `σ` and an
arbitrary routed remainder (every routed handler returns a response, the
store after it, and the trace of store operations it ran).  OPTIONS is
answered before the key check; a falsy (`!apiKey`) or mismatching
(`apiKey !== env.API_KEY`) key is answered with 401 before any routing,
so the store is neither read nor written (empty trace). -/
def workerFetch {σ τ : Type} (routes : JStr → JStr → σ → ApiResponse × σ × List τ)
    (env : WorkerEnv) (req : ApiRequest) (st : σ) : ApiResponse × σ × List τ :=
  if req.method = js "OPTIONS" then ({ status := 200 }, st, [])
  else
    match truthyStr req.apiKey with
    | none => ({ status := 401 }, st, [])
    | some k =>
      if env.API_KEY = some k then routes req.path req.method st
      else ({ status := 401 }, st, [])

/-! ### Store lemmas -/

/-- Whether a callback response is the success page. -/
def CallbackResult.isSuccess : CallbackResult → Bool
  | .success _ _ _ => true
  | _ => false

/-- The fields the sweep's `UPDATE` statement does not mention. -/
def frameProj (r : AuthUser) : JStr × JStr × Nat × JStr × Nat :=
  (r.discord_id, r.discord_username, r.eve_character_id, r.eve_character_name,
   r.created_at)

/-- `created_at` of the record stored under a community identity. -/
def lookupCreated (db : List AuthUser) (did : JStr) : Option Nat :=
  (dbLookup db did).map (fun r => r.created_at)

/-! ### Sequences of core operations on the store (for claim C4) -/

/-- One core operation that can touch the credential store. -/
inductive AuthOp where
  | callback (env : CallbackEnv) (code state : Option JStr)
  | refresh (env : RefreshEnv)

/-- The store after running one operation. -/
def applyAuthOp (db : List AuthUser) : AuthOp → List AuthUser
  | .callback env code state => (handleAuthCallback env db code state).2
  | .refresh env => (refreshAuthTokens env db).2.2

/-- The store after a sequence of operations. -/
def applyAuthOps (db : List AuthUser) (ops : List AuthOp) : List AuthUser :=
  ops.foldl applyAuthOp db

/-! ### Claim theorems -/

/-- C1 (counterexample): a callback whose code exchange succeeds (access
token present, identity verified) but whose character lookup fails leaves
the store empty and returns the error page — the token pair is NOT
persisted, contradicting the claim that a record with partial affiliation
is still written. -/
def cexEnvC1 : CallbackEnv :=
  { tokenResp := some ⟨some (js "AT"), js "RT", 1200⟩
    verifyResp := some ⟨7, js "Ace"⟩
    charResp := fun _ => none
    corpResp := fun _ => none
    allianceResp := fun _ => none
    nowMs := 1000 }

/-- The state token for the C1/C7 scenarios. -/
def cexStateC1 : JStr := (createState (js "U1") (js "alice") 0).getD []

/-- A callback environment on which every fetch succeeds and the
corporation has no alliance (the C7 scenario). -/
def okCallbackEnv : CallbackEnv :=
  { tokenResp := some ⟨some (js "AT"), js "RT", 1200⟩
    verifyResp := some ⟨7, js "Ace"⟩
    charResp := fun _ => some ⟨21⟩
    corpResp := fun _ => some ⟨21, js "Corp", js "CP", none⟩
    allianceResp := fun _ => none
    nowMs := 1000 }

/-- A concrete stored record for witnesses. -/
def sampleUser : AuthUser :=
  { discord_id := js "A"
    discord_username := js "alice"
    eve_character_id := 11
    eve_character_name := js "Ace"
    eve_corporation_id := 21
    eve_corporation_name := js "Corp"
    eve_corporation_ticker := js "CP"
    eve_alliance_id := none
    eve_alliance_name := none
    eve_alliance_ticker := none
    access_token := js "at0"
    refresh_token := js "rt0"
    token_expires_at := 1000
    last_updated := 500
    created_at := 100 }

/-- A refresh environment whose token endpoint rejects every exchange. -/
def failRefreshEnv : RefreshEnv :=
  { refreshResp := fun _ => none
    charResp := fun _ => none
    corpResp := fun _ => none
    allianceResp := fun _ => none
    nowMs := 2000 }

/-- A callback environment whose token endpoint answers without an access
token. -/
def cexEnvC6 : CallbackEnv :=
  { tokenResp := some ⟨none, js "R", 0⟩
    verifyResp := none
    charResp := fun _ => none
    corpResp := fun _ => none
    allianceResp := fun _ => none
    nowMs := 0 }

/-! ### Lemmas and claim theorems -/

theorem b64inv_alpha_fin : ∀ s : Fin 64, b64inv (b64alpha s.val) = some s.val := by
  decide

theorem b64inv_alpha (s : Nat) (h : s < 64) : b64inv (b64alpha s) = some s :=
  b64inv_alpha_fin ⟨s, h⟩

theorem b64inv_61 : b64inv 61 = none := by decide

theorem b64_roundtrip : ∀ l : List Nat, (∀ b ∈ l, b < 256) →
    b64decode (b64encode l) = some l := by
  intro l
  induction l using b64encode.induct with
  | case1 =>
    intro _
    rfl
  | case2 b0 =>
    intro h
    have hb0 : b0 < 256 := h b0 (by simp)
    have h1 : b0 / 4 < 64 := by omega
    have h2 : b0 % 4 * 16 < 64 := by omega
    simp only [b64encode, b64decode, b64inv_alpha _ h1, b64inv_alpha _ h2, b64inv_61]
    simp
    omega
  | case3 b0 b1 =>
    intro h
    have hb0 : b0 < 256 := h b0 (by simp)
    have hb1 : b1 < 256 := h b1 (by simp)
    have h1 : b0 / 4 < 64 := by omega
    have h2 : b0 % 4 * 16 + b1 / 16 < 64 := by omega
    have h3 : b1 % 16 * 4 < 64 := by omega
    simp only [b64encode, b64decode, b64inv_alpha _ h1, b64inv_alpha _ h2,
      b64inv_alpha _ h3, b64inv_61]
    simp
    omega
  | case4 b0 b1 b2 rest ih =>
    intro h
    have hb0 : b0 < 256 := h b0 (by simp)
    have hb1 : b1 < 256 := h b1 (by simp)
    have hb2 : b2 < 256 := h b2 (by simp)
    have hrest : ∀ b ∈ rest, b < 256 := fun b hb => h b (by simp [hb])
    have h1 : b0 / 4 < 64 := by omega
    have h2 : b0 % 4 * 16 + b1 / 16 < 64 := by omega
    have h3 : b1 % 16 * 4 + b2 / 64 < 64 := by omega
    have h4 : b2 % 64 < 64 := by omega
    simp only [b64encode, b64decode, b64inv_alpha _ h1, b64inv_alpha _ h2,
      b64inv_alpha _ h3, b64inv_alpha _ h4, ih hrest, Option.map_some]
    simp
    omega

theorem atob_btoa (s : JStr) (h : btoa s = some t) : atob t = some s := by
  unfold btoa at h
  split at h
  case isTrue hall =>
    cases h
    exact b64_roundtrip s (by simpa [List.all_eq_true] using hall)
  case isFalse => cases h

theorem hexVal_hexDigitChar_fin : ∀ n : Fin 16, hexVal (hexDigitChar n.val) = some n.val := by
  decide

theorem hexVal_hexDigitChar (n : Nat) (h : n < 16) : hexVal (hexDigitChar n) = some n :=
  hexVal_hexDigitChar_fin ⟨n, h⟩

theorem parseJsonString_other (c : Nat) (h34 : c ≠ 34) (h92 : c ≠ 92) (t : List Nat) :
    parseJsonString (c :: t) = (parseJsonString t).map (fun p => (c :: p.1, p.2)) := by
  rw [parseJsonString.eq_def]
  simp only [if_neg h34, if_neg h92]

theorem parse_escape (s : List Nat) : ∀ r : List Nat,
    parseJsonString (jsonEscape s ++ 34 :: r) = some (s, r) := by
  induction s with
  | nil =>
    intro r
    rw [jsonEscape, parseJsonString.eq_def]
    simp
  | cons c s ih =>
    intro r
    rw [jsonEscape, List.append_assoc]
    unfold jsonEscapeChar
    split
    · rename_i h; subst h; rw [parseJsonString.eq_def]; simp [ih]
    split
    · rename_i h; subst h; rw [parseJsonString.eq_def]; simp [ih]
    split
    · rename_i h; subst h; rw [parseJsonString.eq_def]; simp [ih]
    split
    · rename_i h; subst h; rw [parseJsonString.eq_def]; simp [ih]
    split
    · rename_i h; subst h; rw [parseJsonString.eq_def]; simp [ih]
    split
    · rename_i h; subst h; rw [parseJsonString.eq_def]; simp [ih]
    split
    · rename_i h; subst h; rw [parseJsonString.eq_def]; simp [ih]
    split
    · rename_i hlt
      have hh1 : c / 16 < 16 := by omega
      have hh2 : c % 16 < 16 := by omega
      have hv0 : hexVal 48 = some 0 := by decide
      simp only [List.cons_append, List.nil_append]
      rw [parseJsonString.eq_def]
      simp only [hv0, hexVal_hexDigitChar _ hh1, hexVal_hexDigitChar _ hh2, ih]
      simp
      omega
    · rename_i h34 h92 h8 h9 h10 h12 h13 hge
      rw [List.cons_append, List.nil_append, parseJsonString_other c h34 h92, ih]
      rfl

theorem natDigitsAux_zero (fuel : Nat) (acc : List Nat) :
    natDigitsAux fuel 0 acc = acc := by
  match fuel with
  | 0 => rfl
  | f + 1 => simp [natDigitsAux]

theorem natDigitsAux_append : ∀ (fuel n : Nat) (acc : List Nat),
    natDigitsAux fuel n acc = natDigitsAux fuel n [] ++ acc := by
  intro fuel
  induction fuel with
  | zero =>
    intro n acc
    rfl
  | succ f ih =>
    intro n acc
    by_cases h : n = 0
    · subst h
      simp [natDigitsAux]
    · rw [natDigitsAux, natDigitsAux, if_neg h, if_neg h,
        ih (n / 10) ((48 + n % 10) :: acc), ih (n / 10) [48 + n % 10]]
      simp

theorem natDigitsAux_digits : ∀ (fuel n : Nat), ∀ c ∈ natDigitsAux fuel n [],
    48 ≤ c ∧ c ≤ 57 := by
  intro fuel
  induction fuel with
  | zero => intro n c hc; cases hc
  | succ f ih =>
    intro n c hc
    by_cases h : n = 0
    · subst h
      rw [natDigitsAux_zero] at hc
      cases hc
    · rw [natDigitsAux, if_neg h, natDigitsAux_append f (n / 10) _] at hc
      rcases List.mem_append.mp hc with h1 | h1
      · exact ih (n / 10) c h1
      · have : c = 48 + n % 10 := by simpa using h1
        have : n % 10 < 10 := Nat.mod_lt _ (by omega)
        omega

theorem natDigitsAux_ne_nil (fuel n : Nat) (hf : n ≤ fuel) (hn : n ≠ 0) :
    natDigitsAux fuel n [] ≠ [] := by
  cases fuel with
  | zero => omega
  | succ f =>
    rw [natDigitsAux, if_neg hn, natDigitsAux_append f (n / 10) _]
    simp

theorem digitsVal_natDigitsAux : ∀ (fuel n : Nat), n ≠ 0 → n ≤ fuel → ∀ a : Nat,
    (natDigitsAux fuel n []).foldl (fun a c => a * 10 + (c - 48)) a =
      a * 10 ^ (natDigitsAux fuel n []).length + n := by
  intro fuel
  induction fuel with
  | zero => intro n hn hf; omega
  | succ f ih =>
    intro n hn hf a
    have hdiv : n / 10 ≤ f := by
      have : n / 10 < n := Nat.div_lt_self (Nat.pos_of_ne_zero hn) (by omega)
      omega
    rw [natDigitsAux, if_neg hn,
      natDigitsAux_append f (n / 10) _, List.foldl_append, List.length_append]
    by_cases hz : n / 10 = 0
    · rw [hz, natDigitsAux_zero]
      simp only [List.foldl_nil, List.length_nil, List.foldl_cons, List.length_cons]
      have : n % 10 = n := Nat.mod_eq_of_lt (by omega)
      simp
      omega
    · rw [ih (n / 10) hz hdiv a]
      simp only [List.foldl_cons, List.foldl_nil, List.length_cons, List.length_nil]
      have hmod : n % 10 < 10 := Nat.mod_lt _ (by omega)
      have hdm : n / 10 * 10 + n % 10 = n := by omega
      rw [pow_succ]
      have h48 : 48 + n % 10 - 48 = n % 10 := by omega
      rw [h48]
      ring_nf
      omega

theorem digitsVal_natDigits (n : Nat) : digitsVal (natDigits n) = n := by
  unfold natDigits digitsVal
  split
  · simp_all
  · rename_i hn
    rw [digitsVal_natDigitsAux n n hn (Nat.le_refl n) 0]
    simp

theorem natDigits_digits (n : Nat) : ∀ c ∈ natDigits n, isDigit c = true := by
  intro c hc
  unfold natDigits at hc
  split at hc
  · simp at hc
    simp [hc, isDigit]
  · have := natDigitsAux_digits n n c hc
    simp [isDigit]
    omega

theorem natDigits_ne_nil (n : Nat) : natDigits n ≠ [] := by
  unfold natDigits
  split
  · simp
  · exact natDigitsAux_ne_nil n n (Nat.le_refl n) (by assumption)

theorem expectLit_append (p : List Nat) : ∀ s : List Nat, expectLit p (p ++ s) = some s := by
  induction p with
  | nil => intro s; rfl
  | cons a p ih => intro s; simp [expectLit, ih]

theorem takeWhile_append_all (p : Nat → Bool) (x : Nat) (hx : p x = false) :
    ∀ (l r : List Nat), (∀ c ∈ l, p c = true) →
      (l ++ x :: r).takeWhile p = l := by
  intro l
  induction l with
  | nil =>
    intro r _
    simp [List.takeWhile, hx]
  | cons a l ih =>
    intro r hl
    have ha : p a = true := hl a (by simp)
    simp only [List.cons_append, List.takeWhile]
    rw [ha]
    simp [ih r (fun c hc => hl c (by simp [hc]))]

theorem parse_stringify (did dun : JStr) (ts : Nat) :
    parseState (stringifyState did dun ts) = some (did, dun, ts) := by
  have hd : isDigit 125 = false := by decide
  simp only [parseState, stringifyState, expectLit_append, parse_escape,
    takeWhile_append_all isDigit 125 hd (natDigits ts) [] (natDigits_digits ts),
    List.drop_left]
  simp [natDigits_ne_nil ts, digitsVal_natDigits ts]

/-- The quantified content of claim C8: any state token the Authorization
Initiator actually produces decodes back to the original community identity,
display label and timestamp. -/
theorem decodeState_createState (did dun : JStr) (ts : Nat) (st : JStr)
    (h : createState did dun ts = some st) :
    decodeState st = some (did, dun, ts) := by
  rw [createState] at h
  simp only [decodeState, atob_btoa _ h, parse_stringify]

theorem truthyStr_eq_some (o : Option JStr) (l : JStr) (h : truthyStr o = some l) :
    o = some l ∧ l ≠ [] := by
  match o, h with
  | some (c :: s), h =>
    simp [truthyStr] at h
    subst h
    simp

theorem truthyStr_some_ne (l : JStr) (h : l ≠ []) : truthyStr (some l) = some l := by
  match l, h with
  | c :: s, _ => rfl

theorem applyRefreshWrite_discord_id (w : RefreshWrite) (r : AuthUser) :
    (applyRefreshWrite w r).discord_id = r.discord_id := rfl

theorem applyRefreshWrite_frameProj (w : RefreshWrite) (r : AuthUser) :
    frameProj (applyRefreshWrite w r) = frameProj r := rfl

theorem updateWhere_frameProj (db : List AuthUser) (d : JStr) (w : RefreshWrite) :
    (updateWhere db d w).map frameProj = db.map frameProj := by
  unfold updateWhere
  rw [List.map_map]
  apply List.map_congr_left
  intro r _
  by_cases h : r.discord_id = d <;> simp [h, applyRefreshWrite_frameProj]

theorem applyRefreshWrite_created_at (w : RefreshWrite) (r : AuthUser) :
    (applyRefreshWrite w r).created_at = r.created_at := rfl

theorem dbLookup_map_key (f : AuthUser → AuthUser)
    (hk : ∀ r, (f r).discord_id = r.discord_id) (db : List AuthUser) (did : JStr) :
    dbLookup (db.map f) did = (dbLookup db did).map f := by
  induction db with
  | nil => rfl
  | cons r rest ih =>
    unfold dbLookup at ih ⊢
    simp only [List.map_cons, List.find?_cons, hk r]
    cases hd : decide (r.discord_id = did) with
    | true => rfl
    | false => exact ih

theorem dbLookup_key (db : List AuthUser) (did : JStr) (r : AuthUser)
    (h : dbLookup db did = some r) : r.discord_id = did := by
  have := List.find?_some h
  simpa using this

theorem dbLookup_updateWhere (db : List AuthUser) (d : JStr) (w : RefreshWrite)
    (did : JStr) (h : d ≠ did) :
    dbLookup (updateWhere db d w) did = dbLookup db did := by
  unfold updateWhere
  rw [dbLookup_map_key _ (fun r => by
    by_cases hr : r.discord_id = d <;> simp [hr, applyRefreshWrite_discord_id])]
  cases hfind : dbLookup db did with
  | none => rfl
  | some r =>
    have hkey : r.discord_id = did := dbLookup_key db did r hfind
    have : ¬ r.discord_id = d := by rw [hkey]; exact fun hc => h hc.symm
    simp [this]

theorem lookupCreated_updateWhere (db : List AuthUser) (d : JStr) (w : RefreshWrite)
    (did : JStr) :
    lookupCreated (updateWhere db d w) did = lookupCreated db did := by
  unfold lookupCreated updateWhere
  rw [dbLookup_map_key _ (fun r => by
    by_cases hr : r.discord_id = d <;> simp [hr, applyRefreshWrite_discord_id])]
  cases dbLookup db did with
  | none => rfl
  | some r =>
    by_cases hr : r.discord_id = d <;> simp [hr, applyRefreshWrite_created_at]

theorem sweepGo_db_lookup (env : RefreshEnv) (did : JStr) : ∀ (todo db : List AuthUser),
    (∀ u ∈ todo, u.discord_id = did → refreshOne env u = none) →
    dbLookup (sweepGo env db todo).2.2 did = dbLookup db did := by
  intro todo
  induction todo with
  | nil => intro db _; rfl
  | cons user rest ih =>
    intro db hyp
    cases hro : refreshOne env user with
    | some w =>
      have hne : user.discord_id ≠ did := by
        intro he
        have := hyp user (by simp) he
        rw [this] at hro
        cases hro
      simp only [sweepGo, hro]
      rw [ih (updateWhere db user.discord_id w) (fun u hu he => hyp u (by simp [hu]) he)]
      exact dbLookup_updateWhere db user.discord_id w did hne
    | none =>
      simp only [sweepGo, hro]
      exact ih db (fun u hu he => hyp u (by simp [hu]) he)

theorem dbLookup_nodup_mem (db : List AuthUser) (u : AuthUser)
    (hnd : (db.map (fun r => r.discord_id)).Nodup) (hu : u ∈ db) :
    dbLookup db u.discord_id = some u := by
  induction db with
  | nil => cases hu
  | cons r rest ih =>
    rcases List.mem_cons.mp hu with rfl | hmem
    · simp [dbLookup, List.find?_cons]
    · rw [List.map_cons, List.nodup_cons] at hnd
      have hne : ¬ (r.discord_id = u.discord_id) := by
        intro he
        exact hnd.1 (he ▸ List.mem_map_of_mem _ hmem)
      simp only [dbLookup, List.find?_cons, hne, decide_eq_false, Bool.false_eq_true,
        if_neg]
      exact ih hnd.2 hmem

theorem sweepGo_spec (env : RefreshEnv) : ∀ (todo db : List AuthUser),
    (sweepGo env db todo).1 =
        todo.filterMap (fun u => (refreshOne env u).map (mkRefreshedItem u)) ∧
      (sweepGo env db todo).2.1 =
        (todo.filter (fun u => (refreshOne env u).isNone)).map
          (fun u => { discord_id := u.discord_id }) ∧
      (sweepGo env db todo).1.length + (sweepGo env db todo).2.1.length = todo.length := by
  intro todo
  induction todo with
  | nil =>
    intro db
    exact ⟨rfl, rfl, rfl⟩
  | cons user rest ih =>
    intro db
    cases hro : refreshOne env user with
    | some w =>
      obtain ⟨ih1, ih2, ih3⟩ := ih (updateWhere db user.discord_id w)
      simp only [sweepGo, hro]
      refine ⟨?_, ?_, ?_⟩
      · simp [List.filterMap_cons, hro, ih1]
      · simp [List.filter_cons, hro, ih2]
      · simp only [List.length_cons]
        omega
    | none =>
      obtain ⟨ih1, ih2, ih3⟩ := ih db
      simp only [sweepGo, hro]
      refine ⟨?_, ?_, ?_⟩
      · simp [List.filterMap_cons, hro, ih1]
      · simp [List.filter_cons, hro, ih2]
      · simp only [List.length_cons]
        omega

theorem sweepGo_frame (env : RefreshEnv) : ∀ (todo db : List AuthUser),
    ((sweepGo env db todo).2.2).map frameProj = db.map frameProj := by
  intro todo
  induction todo with
  | nil => intro db; rfl
  | cons user rest ih =>
    intro db
    cases hro : refreshOne env user with
    | some w =>
      simp only [sweepGo, hro]
      rw [ih (updateWhere db user.discord_id w), updateWhere_frameProj]
    | none =>
      simp only [sweepGo, hro]
      exact ih db

theorem sweepGo_lookupCreated (env : RefreshEnv) : ∀ (todo db : List AuthUser) (did : JStr),
    lookupCreated (sweepGo env db todo).2.2 did = lookupCreated db did := by
  intro todo
  induction todo with
  | nil => intro db did; rfl
  | cons user rest ih =>
    intro db did
    cases hro : refreshOne env user with
    | some w =>
      simp only [sweepGo, hro]
      rw [ih (updateWhere db user.discord_id w) did, lookupCreated_updateWhere]
    | none =>
      simp only [sweepGo, hro]
      exact ih db did

theorem dbLookup_upsert (db : List AuthUser) (u : AuthUser) :
    dbLookup (upsertUser db u) u.discord_id = some u := by
  unfold dbLookup upsertUser
  rw [List.find?_append]
  have h1 : (db.filter (fun r => decide (r.discord_id ≠ u.discord_id))).find?
      (fun r => decide (r.discord_id = u.discord_id)) = none := by
    rw [List.find?_eq_none]
    intro x hx
    have hmem := (List.mem_filter.mp hx).2
    simp at hmem ⊢
    exact hmem
  rw [h1]
  simp [List.find?_cons]

theorem find?_filter_key (db : List AuthUser) (did dkey : JStr) (h : did ≠ dkey) :
    (db.filter (fun r => decide (r.discord_id ≠ dkey))).find?
        (fun r => decide (r.discord_id = did)) =
      db.find? (fun r => decide (r.discord_id = did)) := by
  induction db with
  | nil => rfl
  | cons r rest ih =>
    by_cases hr : r.discord_id = dkey
    · have hnp : ¬ (r.discord_id = did) := by
        rw [hr]
        exact fun hc => h hc.symm
      have hb1 : (decide (r.discord_id ≠ dkey)) = false := by simp [hr]
      have hb2 : (decide (r.discord_id = did)) = false := by simp [hnp]
      simp only [List.filter_cons, hb1, Bool.false_eq_true, if_false, List.find?_cons, hb2]
      exact ih
    · by_cases hp : r.discord_id = did
      · have hb1 : (decide (r.discord_id ≠ dkey)) = true := by simp [hr]
        have hb2 : (decide (r.discord_id = did)) = true := by simp [hp]
        simp only [List.filter_cons, hb1, if_true, List.find?_cons, hb2]
      · have hb1 : (decide (r.discord_id ≠ dkey)) = true := by simp [hr]
        have hb2 : (decide (r.discord_id = did)) = false := by simp [hp]
        simp only [List.filter_cons, hb1, if_true, List.find?_cons, hb2]
        exact ih

theorem dbLookup_upsert_ne (db : List AuthUser) (u : AuthUser) (did : JStr)
    (h : did ≠ u.discord_id) :
    dbLookup (upsertUser db u) did = dbLookup db did := by
  unfold dbLookup upsertUser
  rw [List.find?_append, find?_filter_key db did u.discord_id h]
  cases hf : db.find? (fun r => decide (r.discord_id = did)) with
  | some r => rfl
  | none =>
    have : ¬ (u.discord_id = did) := fun hc => h hc.symm
    simp [List.find?_cons, this]

theorem handleAuthCallback_cases (env : CallbackEnv) (db : List AuthUser)
    (code state : Option JStr) :
    ((handleAuthCallback env db code state).1.isSuccess = true ∧
      (∃ t a, env.tokenResp = some t ∧ t.access_token = some a) ∧
      (∃ ci, env.verifyResp = some ci ∧
        ∃ cd, env.charResp ci.CharacterID = some cd ∧
        ∃ corp, env.corpResp cd.corporation_id = some corp ∧
        ∀ aid, truthyNat corp.alliance_id = some aid →
          ∃ ad, env.allianceResp aid = some ad) ∧
      (∃ u : AuthUser, (handleAuthCallback env db code state).2 = upsertUser db u ∧
        ∀ prev, dbLookup db u.discord_id = some prev →
          u.created_at = prev.created_at)) ∨
    ((handleAuthCallback env db code state).1.isSuccess = false ∧
      (handleAuthCallback env db code state).2 = db) := by
  unfold handleAuthCallback
  repeat' split
  all_goals try (right; exact ⟨rfl, rfl⟩)
  all_goals left
  all_goals refine ⟨rfl, ⟨_, _, by assumption, by assumption⟩,
    ⟨_, by assumption, _, by assumption, _, by assumption, ?_⟩, _, rfl, ?_⟩
  all_goals try (
    intro aid haid
    cases had : env.allianceResp aid with
    | some ad => exact ⟨ad, rfl⟩
    | none =>
      exfalso
      simp_all)
  all_goals intro prev hprev
  all_goals simp_all

theorem lookupCreated_callback (env : CallbackEnv) (db : List AuthUser)
    (code state : Option JStr) (did : JStr) (c : Nat)
    (h : lookupCreated db did = some c) :
    lookupCreated (handleAuthCallback env db code state).2 did = some c := by
  rcases handleAuthCallback_cases env db code state with
    ⟨_, _, _, u, heq, hcrea⟩ | ⟨_, heq⟩
  · rw [heq]
    by_cases hdid : did = u.discord_id
    · obtain ⟨prev, hprev, hc⟩ := Option.map_eq_some'.mp h
      unfold lookupCreated
      rw [hdid, dbLookup_upsert]
      have := hcrea prev (by rw [← hdid]; exact hprev)
      simp [this, hc]
    · unfold lookupCreated at h ⊢
      rw [dbLookup_upsert_ne db u did hdid]
      exact h
  · rw [heq]
    exact h

theorem lookupCreated_applyAuthOp (db : List AuthUser) (op : AuthOp) (did : JStr)
    (c : Nat) (h : lookupCreated db did = some c) :
    lookupCreated (applyAuthOp db op) did = some c := by
  cases op with
  | callback env code state => exact lookupCreated_callback env db code state did c h
  | refresh env =>
    unfold applyAuthOp refreshAuthTokens
    rw [sweepGo_lookupCreated]
    exact h

/-- C2: for every record in the store whose refresh attempt fails (the
refresh-token exchange is rejected or any step before the database write
throws, i.e. `refreshOne` yields `none`), the sweep leaves that record —
in particular its `access_token`, `refresh_token` and `token_expires_at` —
exactly unchanged: the record looked up after the sweep is the original
row, with no partial write. -/
theorem refresh_failure_leaves_record_unchanged (env : RefreshEnv)
    (db : List AuthUser) (u : AuthUser)
    (hnd : (db.map (fun r => r.discord_id)).Nodup) (hu : u ∈ db)
    (hfail : refreshOne env u = none) :
    dbLookup (refreshAuthTokens env db).2.2 u.discord_id = some u := by
  unfold refreshAuthTokens
  rw [sweepGo_db_lookup env u.discord_id _ db ?hyp]
  · exact dbLookup_nodup_mem db u hnd hu
  case hyp =>
    intro v hv he
    have hvdb : v ∈ db := (List.mem_filter.mp hv).1
    have hvu : v = u := List.inj_on_of_nodup_map hnd hvdb hu he
    rw [hvu]
    exact hfail

/-- C3: the sweep runs over exactly the records selected by the
expiring-record query, and that query selects exactly the records with
`token_expires_at ≤ now + horizon`, for any horizon — the comparison is
inclusive, so a record sitting exactly on the boundary is selected. -/
theorem expiring_query_spec :
    (∀ (env : RefreshEnv) (db : List AuthUser),
        refreshAuthTokens env db =
          sweepGo env db (listExpiringWithin db (env.nowMs + 3600000))) ∧
    ∀ (db : List AuthUser) (now h : Nat) (u : AuthUser),
      u ∈ listExpiringWithin db (now + h) ↔
        u ∈ db ∧ u.token_expires_at ≤ now + h := by
  refine ⟨fun env db => rfl, fun db now h u => ?_⟩
  simp [listExpiringWithin, List.mem_filter]

/-- C4: a record's `created_at` is invariant under any sequence of callback
upserts and refresh sweeps: if the store maps a community identity to a
record with `created_at = c`, it still does after any number of
`handleAuthCallback` and `refreshAuthTokens` runs. -/
theorem created_at_invariant (ops : List AuthOp) : ∀ (db : List AuthUser)
    (did : JStr) (c : Nat), lookupCreated db did = some c →
    lookupCreated (applyAuthOps db ops) did = some c := by
  induction ops with
  | nil => intro db did c h; exact h
  | cons op rest ih =>
    intro db did c h
    exact ih (applyAuthOp db op) did c (lookupCreated_applyAuthOp db op did c h)

/-- C5: one sweep attempts each selected record exactly once and puts it in
exactly one of the two returned sequences: `refreshed` collects exactly the
records whose attempt succeeded (in order), `failed` exactly those whose
attempt failed, and the lengths add up to the selection — a record's
failure never prevents the attempt on the records after it. -/
theorem sweep_outcome_partition (env : RefreshEnv) (db : List AuthUser) :
    (refreshAuthTokens env db).1 =
        (listExpiringWithin db (env.nowMs + 3600000)).filterMap
          (fun u => (refreshOne env u).map (mkRefreshedItem u)) ∧
      (refreshAuthTokens env db).2.1 =
        ((listExpiringWithin db (env.nowMs + 3600000)).filter
            (fun u => (refreshOne env u).isNone)).map
          (fun u => { discord_id := u.discord_id }) ∧
      (refreshAuthTokens env db).1.length + (refreshAuthTokens env db).2.1.length =
        (listExpiringWithin db (env.nowMs + 3600000)).length :=
  sweepGo_spec env (listExpiringWithin db (env.nowMs + 3600000)) db

/-- C9: a refresh sweep never changes any record's `discord_id`,
`discord_username`, `eve_character_id`, `eve_character_name` or
`created_at` (the fields `frameProj` projects): its `UPDATE` writes only
the corporation/alliance fields, the token pair, `token_expires_at` and
`last_updated`. -/
theorem refresh_update_frame (env : RefreshEnv) (db : List AuthUser) :
    ((refreshAuthTokens env db).2.2).map frameProj = db.map frameProj :=
  sweepGo_frame env (listExpiringWithin db (env.nowMs + 3600000)) db

/-- C6: if the token-endpoint response lacks an access credential, the
callback fails (it never reaches the success page) and the store is
unchanged — no record is created or modified. -/
theorem missing_access_token_no_write (env : CallbackEnv) (db : List AuthUser)
    (code state : Option JStr) (t : TokenResponse)
    (ht : env.tokenResp = some t) (hmiss : t.access_token = none) :
    (handleAuthCallback env db code state).1.isSuccess = false ∧
    (handleAuthCallback env db code state).2 = db := by
  rcases handleAuthCallback_cases env db code state with
    ⟨_, ⟨t', a, ht', ha⟩, _, _⟩ | h
  · rw [ht] at ht'
    cases ht'
    rw [hmiss] at ha
    cases ha
  · exact h

/-- C1 (counterexample): see `cexEnvC1`. -/
theorem affiliation_failure_persists_nothing_cex :
    (handleAuthCallback cexEnvC1 [] (some (js "c")) (some cexStateC1)).2 = [] ∧
    (handleAuthCallback cexEnvC1 [] (some (js "c")) (some cexStateC1)).1 =
      .authError := by decide

/-- C1 (amended): if the authorization-code exchange succeeds but a
subsequent affiliation-resolution fetch (character, corporation, or
required alliance lookup) fails, the whole callback fails and NO record is
written: the store is unchanged and the token pair is not persisted. -/
theorem affiliation_failure_no_record (env : CallbackEnv) (db : List AuthUser)
    (code state : Option JStr)
    (hfail :
      (∃ ci, env.verifyResp = some ci ∧ env.charResp ci.CharacterID = none) ∨
      (∃ ci cd, env.verifyResp = some ci ∧ env.charResp ci.CharacterID = some cd ∧
        env.corpResp cd.corporation_id = none) ∨
      (∃ ci cd corp aid, env.verifyResp = some ci ∧
        env.charResp ci.CharacterID = some cd ∧
        env.corpResp cd.corporation_id = some corp ∧
        truthyNat corp.alliance_id = some aid ∧ env.allianceResp aid = none)) :
    (handleAuthCallback env db code state).1.isSuccess = false ∧
    (handleAuthCallback env db code state).2 = db := by
  rcases handleAuthCallback_cases env db code state with
    ⟨_, _, ⟨ci, hci, cd, hcd, corp, hcorp, hal⟩, _⟩ | h
  · exfalso
    rcases hfail with ⟨ci', h1, h2⟩ | ⟨ci', cd', h1, h2, h3⟩ |
      ⟨ci', cd', corp', aid, h1, h2, h3, h4, h5⟩
    · simp_all
    · simp_all
    · rw [h1] at hci
      cases hci
      rw [h2] at hcd
      cases hcd
      rw [h3] at hcorp
      cases hcorp
      obtain ⟨ad, had⟩ := hal aid h4
      rw [h5] at had
      cases had
  · exact h

/-- C1 (amended, witness): the concrete C1 scenario run through the amended
theorem. -/
theorem affiliation_failure_no_record_witness :
    (handleAuthCallback cexEnvC1 [] (some (js "c")) (some cexStateC1)).1.isSuccess =
        false ∧
    (handleAuthCallback cexEnvC1 [] (some (js "c")) (some cexStateC1)).2 = [] :=
  affiliation_failure_no_record cexEnvC1 [] (some (js "c")) (some cexStateC1)
    (Or.inl ⟨⟨7, js "Ace"⟩, rfl, rfl⟩)

/-- C7: a successful callback whose provider response declares `expires_in`
and whose resolved corporation has no alliance (`alliance_id` absent)
stores a record whose `token_expires_at` is the exchange time plus the
declared lifetime (`nowMs + expires_in * 1000` milliseconds, i.e.
`expires_in` seconds) and whose alliance (secondary affiliation) columns
are all null, and returns the success page without an alliance tag. -/
theorem callback_success_no_parent (env : CallbackEnv) (db : List AuthUser)
    (code : JStr) (hcode : code ≠ [])
    (st did dun : JStr) (ts : Nat) (hst : decodeState st = some (did, dun, ts))
    (t : TokenResponse) (ht : env.tokenResp = some t)
    (a : JStr) (ha : t.access_token = some a)
    (ci : CharacterInfo) (hci : env.verifyResp = some ci)
    (cd : CharData) (hcd : env.charResp ci.CharacterID = some cd)
    (corp : CorpData) (hcorp : env.corpResp cd.corporation_id = some corp)
    (hnoal : corp.alliance_id = none) :
    (handleAuthCallback env db (some code) (some st)).1 =
      .success ci.CharacterName corp.ticker none ∧
    ∃ r : AuthUser,
      dbLookup (handleAuthCallback env db (some code) (some st)).2 did = some r ∧
      r.token_expires_at = env.nowMs + t.expires_in * 1000 ∧
      r.eve_alliance_id = none ∧ r.eve_alliance_name = none ∧
      r.eve_alliance_ticker = none ∧
      r.access_token = a ∧ r.refresh_token = t.refresh_token := by
  have hstne : st ≠ [] := by
    intro hnil
    rw [hnil, show decodeState [] = none from by decide] at hst
    cases hst
  simp only [handleAuthCallback, truthyStr_some_ne code hcode,
    truthyStr_some_ne st hstne, hst, ht, ha, hci, hcd, hcorp, hnoal, truthyNat,
    Option.map_none]
  exact ⟨rfl, _, dbLookup_upsert db _, rfl, rfl, rfl, rfl, rfl, rfl⟩

/-- C7 (witness): the theorem at the concrete `okCallbackEnv` scenario. -/
theorem callback_success_no_parent_witness :
    (handleAuthCallback okCallbackEnv [] (some (js "c")) (some cexStateC1)).1 =
      .success (js "Ace") (js "CP") none ∧
    ∃ r : AuthUser,
      dbLookup (handleAuthCallback okCallbackEnv [] (some (js "c"))
          (some cexStateC1)).2 (js "U1") = some r ∧
      r.token_expires_at = 1000 + 1200 * 1000 ∧
      r.eve_alliance_id = none ∧ r.eve_alliance_name = none ∧
      r.eve_alliance_ticker = none ∧
      r.access_token = js "AT" ∧ r.refresh_token = js "RT" :=
  callback_success_no_parent okCallbackEnv [] (js "c") (by decide)
    cexStateC1 (js "U1") (js "alice") 0 (by decide)
    ⟨some (js "AT"), js "RT", 1200⟩ rfl (js "AT") rfl
    ⟨7, js "Ace"⟩ rfl ⟨21⟩ rfl ⟨21, js "Corp", js "CP", none⟩ rfl rfl

/-- C8: for every community identity and display label the Authorization
Initiator accepts (producing an authorization URL rather than rejecting or
throwing), base64-decoding then JSON-parsing the embedded state token — as
the Callback Handler does — recovers exactly the original community
identity, display label and timestamp: the state encoding round-trips. -/
theorem auth_state_roundtrip (did dun : JStr) (ts : Nat) (st : JStr)
    (h : createAuthURL did dun ts = .ok st) :
    decodeState st = some (did, dun, ts) := by
  unfold createAuthURL at h
  split at h
  · cases h
  · revert h
    cases hcs : createState did dun ts with
    | none => intro h; cases h
    | some stp =>
      intro h
      cases h
      exact decodeState_createState did dun ts _ hcs

/-- C8 (witness): the round trip at a concrete identity, label and
timestamp. -/
theorem auth_state_roundtrip_witness :
    decodeState ((createState (js "77") (js "Pilot One") 1700000000000).getD []) =
      some (js "77", js "Pilot One", 1700000000000) :=
  auth_state_roundtrip (js "77") (js "Pilot One") 1700000000000 _ (by decide)

/-- C10: a request whose method is not OPTIONS and whose `X-API-Key` header
is missing or differs from the configured key is answered 401 with the
store untouched and no store operation run, whatever the path and method;
an OPTIONS request is answered (200, CORS preflight) before any key check,
with its outcome independent of any key. -/
theorem api_key_gate {σ τ : Type} (routes : JStr → JStr → σ → ApiResponse × σ × List τ)
    (env : WorkerEnv) (req : ApiRequest) (st : σ) :
    (req.method ≠ js "OPTIONS" →
      (req.apiKey = none ∨ req.apiKey ≠ env.API_KEY) →
      workerFetch routes env req st = ({ status := 401 }, st, [])) ∧
    (req.method = js "OPTIONS" →
      workerFetch routes env req st = ({ status := 200 }, st, [])) := by
  constructor
  · intro hm hk
    unfold workerFetch
    rw [if_neg hm]
    cases htr : truthyStr req.apiKey with
    | none => rfl
    | some k =>
      obtain ⟨hkey, hne⟩ := truthyStr_eq_some _ _ htr
      have hmatch : ¬ (env.API_KEY = some k) := by
        intro he
        rcases hk with h1 | h1
        · rw [h1] at hkey
          cases hkey
        · exact h1 (by rw [hkey, he])
      show (if env.API_KEY = some k then routes req.path req.method st
        else ({ status := 401 }, st, [])) = ({ status := 401 }, st, [])
      rw [if_neg hmatch]
  · intro hm
    unfold workerFetch
    rw [if_pos hm]

/-- C10 (witness): a GET with no `X-API-Key` header is answered 401 with
the store and trace untouched. -/
theorem api_key_gate_witness :
    workerFetch (fun _ _ (s : Nat) => ({ status := 200 }, s, ([0] : List Nat)))
        { API_KEY := some (js "k") }
        { method := js "GET", path := js "/reminders", apiKey := none } 5 =
      ({ status := 401 }, 5, []) :=
  (api_key_gate (fun _ _ (s : Nat) => ({ status := 200 }, s, ([0] : List Nat)))
      { API_KEY := some (js "k") }
      { method := js "GET", path := js "/reminders", apiKey := none } 5).1
    (by decide) (Or.inl rfl)

/-- C2 (witness): a sweep over one selected record whose refresh-token
exchange is rejected leaves that record byte-for-byte unchanged. -/
theorem refresh_failure_leaves_record_unchanged_witness :
    dbLookup (refreshAuthTokens failRefreshEnv [sampleUser]).2.2
        sampleUser.discord_id = some sampleUser :=
  refresh_failure_leaves_record_unchanged failRefreshEnv [sampleUser] sampleUser
    (by decide) (by decide) rfl

/-- C6 (witness): the theorem at the concrete `cexEnvC6` scenario. -/
theorem missing_access_token_no_write_witness :
    (handleAuthCallback cexEnvC6 [] (some (js "c")) (some (js "s"))).1.isSuccess =
        false ∧
    (handleAuthCallback cexEnvC6 [] (some (js "c")) (some (js "s"))).2 = [] :=
  missing_access_token_no_write cexEnvC6 [] (some (js "c")) (some (js "s"))
    ⟨none, js "R", 0⟩ rfl rfl

/-- C4 (witness): the stored `created_at` of `sampleUser` survives a failed
refresh sweep followed by a re-authorization callback. -/
theorem created_at_invariant_witness :
    lookupCreated (applyAuthOps [sampleUser]
        [AuthOp.refresh failRefreshEnv,
         AuthOp.callback cexEnvC6 (some (js "c")) (some (js "s"))]) (js "A") =
      some 100 :=
  created_at_invariant
    [AuthOp.refresh failRefreshEnv,
     AuthOp.callback cexEnvC6 (some (js "c")) (some (js "s"))]
    [sampleUser] (js "A") 100 (by decide)
